import Mathlib

/-!
Shallow embedding of `src/main.cpp` (wow-335a-patcher): a byte patcher for a
single binary file, consisting of low-level byte writers over a global
`std::fstream` (`writeBytesAt`, `writeByteAt`, `writeRepeatedBytesAt`),
a backup manager (`createBackup`, `restoreBackup`), a validator
(`validateExecutable`), and `main`, which orchestrates
exists-check → backup → validation → open → patch loop → close.

The embedding models:
  * the filesystem as an association list from paths to byte lists;
  * the global stream `wowExe` as explicit state (open flag, fail flag,
    write position, buffered file contents);
  * environmental failures (a copy that throws, an open that fails, a seek
    or write that fails) as boolean flags and a schedule of per-operation
    faults, so that error-handling behaviour is quantifiable;
  * an event trace recording, in order, the externally visible operations a
    run performs, so that ordering properties (backup before validation,
    writes only after validation) are statable.
-/

/-- One externally visible operation performed during a run. -/
inductive Event where
  | existsCheck : String → Bool → Event
  | copyFile : String → String → Event
  | copyFailed : String → String → Event
  | validated : String → Bool → Event
  | streamOpen : String → Bool → Event
  | streamClear : Event
  | streamSeek : Nat → Bool → Event
  | streamWrite : Nat → List Nat → Bool → Event
  | streamClose : Event
  | removeFile : String → Event
  | renameFile : String → String → Event
deriving DecidableEq

/-- The whole program state: filesystem, environment-failure flags, the
global `wowExe` stream (`s*` fields), the schedule of environmental
seek/write faults, and the event trace. -/
structure PState where
  fs : List (String × List Nat)
  copyFails : Bool
  openReadFails : Bool
  openRWFails : Bool
  removeFails : Bool
  renameFails : Bool
  sOpen : Bool
  sPath : Option String
  sFail : Bool
  sPos : Nat
  sBuf : List Nat
  faults : List Bool
  trace : List Event

/-- Append an event to the trace. -/
def emit (st : PState) (e : Event) : PState :=
  { st with trace := st.trace ++ [e] }

@[simp] theorem emit_fs (st : PState) (e : Event) : (emit st e).fs = st.fs := rfl

@[simp] theorem emit_copyFails (st : PState) (e : Event) : (emit st e).copyFails = st.copyFails := rfl

@[simp] theorem emit_openReadFails (st : PState) (e : Event) : (emit st e).openReadFails = st.openReadFails := rfl

@[simp] theorem emit_openRWFails (st : PState) (e : Event) : (emit st e).openRWFails = st.openRWFails := rfl

@[simp] theorem emit_removeFails (st : PState) (e : Event) : (emit st e).removeFails = st.removeFails := rfl

@[simp] theorem emit_renameFails (st : PState) (e : Event) : (emit st e).renameFails = st.renameFails := rfl

@[simp] theorem emit_sOpen (st : PState) (e : Event) : (emit st e).sOpen = st.sOpen := rfl

@[simp] theorem emit_sPath (st : PState) (e : Event) : (emit st e).sPath = st.sPath := rfl

@[simp] theorem emit_sFail (st : PState) (e : Event) : (emit st e).sFail = st.sFail := rfl

@[simp] theorem emit_sPos (st : PState) (e : Event) : (emit st e).sPos = st.sPos := rfl

@[simp] theorem emit_sBuf (st : PState) (e : Event) : (emit st e).sBuf = st.sBuf := rfl

@[simp] theorem emit_faults (st : PState) (e : Event) : (emit st e).faults = st.faults := rfl

@[simp] theorem emit_trace (st : PState) (e : Event) : (emit st e).trace = st.trace ++ [e] := rfl

/-- Filesystem lookup: contents of the file at path `p`, if it exists. -/
def lookupFS : List (String × List Nat) → String → Option (List Nat)
  | [], _ => none
  | (q, c) :: rest, p => if q = p then some c else lookupFS rest p

/-- Filesystem update: create or overwrite the file at path `p`. -/
def setFS : List (String × List Nat) → String → List Nat → List (String × List Nat)
  | [], p, c => [(p, c)]
  | (q, d) :: rest, p, c => if q = p then (p, c) :: rest else (q, d) :: setFS rest p c

/-- Filesystem removal: delete the file at path `p` (no-op if absent). -/
def removeFS : List (String × List Nat) → String → List (String × List Nat)
  | [], _ => []
  | (q, d) :: rest, p => if q = p then removeFS rest p else (q, d) :: removeFS rest p

/-- Overwrite one byte of `file` at index `pos` (zero-padding if `pos` is
past the end, as a seek past end-of-file followed by a write does). -/
def setByte : List Nat → Nat → Nat → List Nat
  | [], 0, v => [v]
  | _ :: fs, 0, v => v :: fs
  | [], p + 1, v => 0 :: setByte [] p v
  | f :: fs, p + 1, v => f :: setByte fs p v

/-- Overwrite `data.length` consecutive bytes of `file` starting at `pos`. -/
def setBytes : List Nat → Nat → List Nat → List Nat
  | file, _, [] => file
  | file, pos, d :: ds => setBytes (setByte file pos d) (pos + 1) ds

/-- `kExpectedSize` from the source: the exact byte length the target
executable must have (`0x757C00`). -/
def kExpectedSize : Nat := 0x757C00

/-- `EXIT_SUCCESS` of the C runtime. -/
def EXIT_SUCCESS : Nat := 0

/-- `EXIT_FAILURE` of the C runtime. -/
def EXIT_FAILURE : Nat := 1

/-- Consume the next scheduled environmental fault flag (`true` = the next
physical stream operation fails); an exhausted schedule means no fault. -/
def takeFault (st : PState) : Bool × PState :=
  match st.faults with
  | [] => (false, st)
  | b :: rest => (b, { st with faults := rest })

/-- `handleStreamError`: reports whether the stream is in a failed state
(the C++ function also prints the message, which is not modelled). -/
def handleStreamError (st : PState) : Bool := st.sFail

/-- `wowExe.clear()`: clear the stream's error flags. -/
def streamClear (st : PState) : PState :=
  emit { st with sFail := false } Event.streamClear

/-- `wowExe.seekp(pos)`: on a failed stream the sentry fails and nothing
happens; on a closed stream the seek fails and sets the fail state;
otherwise it consumes a fault flag and either fails or moves the cursor. -/
def streamSeekp (st : PState) (pos : Nat) : PState :=
  if st.sFail = true then st
  else if st.sOpen = false then emit { st with sFail := true } (Event.streamSeek pos false)
  else
    match takeFault st with
    | (true, st1) => emit { st1 with sFail := true } (Event.streamSeek pos false)
    | (false, st1) => emit { st1 with sPos := pos } (Event.streamSeek pos true)

/-- `wowExe.write(buf, n)`: on a failed stream the sentry fails and nothing
happens; on a closed stream the write fails and sets the fail state;
otherwise it consumes a fault flag and either fails or writes `bytes` at
the cursor, advancing it. -/
def streamWriteOp (st : PState) (bytes : List Nat) : PState :=
  if st.sFail = true then st
  else if st.sOpen = false then emit { st with sFail := true } (Event.streamWrite st.sPos bytes false)
  else
    match takeFault st with
    | (true, st1) => emit { st1 with sFail := true } (Event.streamWrite st1.sPos bytes false)
    | (false, st1) =>
        emit { st1 with sBuf := setBytes st1.sBuf st1.sPos bytes, sPos := st1.sPos + bytes.length }
             (Event.streamWrite st1.sPos bytes true)

/-- The per-value write loop of `writeBytesAt`: write each value (one byte,
since the template is instantiated at `uint8_t`), checking
`handleStreamError` after each write and stopping on the first failure. -/
def writeValuesLoop (st : PState) : List Nat → PState
  | [] => st
  | v :: rest =>
    let st1 := streamWriteOp st [v]
    if handleStreamError st1 then st1 else writeValuesLoop st1 rest

/-- `writeBytesAt(pos, values)`: guarded by `if (!wowExe)` — the stream's
fail state, not its openness — then `clear()`, `seekp(pos)`, a
`handleStreamError` check, and the per-value write loop. -/
def writeBytesAt (st : PState) (pos : Nat) (values : List Nat) : PState :=
  if st.sFail = true then st
  else
    let st1 := streamClear st
    let st2 := streamSeekp st1 pos
    if handleStreamError st2 then st2
    else writeValuesLoop st2 values

/-- `writeByteAt(pos, value)`: guarded by `is_open()`, then `clear()`,
`seekp(pos)`, a check, and a single one-byte write. -/
def writeByteAt (st : PState) (pos : Nat) (value : Nat) : PState :=
  if st.sOpen = false then st
  else
    let st1 := streamClear st
    let st2 := streamSeekp st1 pos
    if handleStreamError st2 then st2
    else streamWriteOp st2 [value]

/-- `writeRepeatedBytesAt(pos, value, n)`: guarded by `if (!wowExe)`, then
`clear()`, `seekp(pos)`, a check, and one block write of `n` copies of
`value`. -/
def writeRepeatedBytesAt (st : PState) (pos : Nat) (value : Nat) (n : Nat) : PState :=
  if st.sFail = true then st
  else
    let st1 := streamClear st
    let st2 := streamSeekp st1 pos
    if handleStreamError st2 then st2
    else streamWriteOp st2 (List.replicate n value)

/-- `createBackup(filepath)`: copy `filepath` to `filepath + ".backup"`
(overwriting any existing backup); a copy that throws — environmental
failure or missing source — is caught and yields `none`. -/
def createBackup (st : PState) (filepath : String) : Option String × PState :=
  let backupPath := filepath ++ ".backup"
  if st.copyFails = true then (none, emit st (Event.copyFailed filepath backupPath))
  else
    match lookupFS st.fs filepath with
    | none => (none, emit st (Event.copyFailed filepath backupPath))
    | some c =>
        (some backupPath,
         emit { st with fs := setFS st.fs backupPath c } (Event.copyFile filepath backupPath))

/-- `validateExecutable(filepath)`: fail if the path does not exist, fail
if it cannot be opened for binary reading, fail if its size (found by
seeking to end-of-file) is not exactly `kExpectedSize`, else pass. -/
def validateExecutable (st : PState) (filepath : String) : Bool × PState :=
  match lookupFS st.fs filepath with
  | none => (false, emit st (Event.validated filepath false))
  | some c =>
      if st.openReadFails = true then (false, emit st (Event.validated filepath false))
      else if c.length ≠ kExpectedSize then (false, emit st (Event.validated filepath false))
      else (true, emit st (Event.validated filepath true))

/-- `restoreBackup(wow)`: if `wow + ".backup"` does not exist, fail
("Backup not found"); otherwise `fs::remove(wow)` then
`fs::rename(backup, wow)`, where either filesystem call may throw — the
exception is caught and the function returns `false`, leaving whatever the
first call already did in place. -/
def restoreBackup (st : PState) (wow : String) : Bool × PState :=
  let backupPath := wow ++ ".backup"
  match lookupFS st.fs backupPath with
  | none => (false, st)
  | some c =>
      if st.removeFails = true then (false, st)
      else
        let st1 := emit { st with fs := removeFS st.fs wow } (Event.removeFile wow)
        if st1.renameFails = true then (false, st1)
        else
          (true, emit { st1 with fs := setFS (removeFS st1.fs backupPath) wow c }
                      (Event.renameFile backupPath wow))

/-- `wowExe.open(path, in|out|binary)`: fails (setting the fail state) if
the file does not exist or the environment refuses the open; on success the
stream is open with cleared flags, cursor 0 and the file's contents. -/
def openStream (st : PState) (path : String) : PState :=
  match lookupFS st.fs path with
  | none => emit { st with sFail := true } (Event.streamOpen path false)
  | some c =>
      if st.openRWFails = true then emit { st with sFail := true } (Event.streamOpen path false)
      else emit { st with sOpen := true, sPath := some path, sFail := false, sPos := 0, sBuf := c }
                (Event.streamOpen path true)

/-- `wowExe.close()`: flush the buffered contents back to the filesystem
and mark the stream closed (closing a stream that is not open fails). -/
def closeStream (st : PState) : PState :=
  match st.sPath with
  | some p =>
      emit { st with fs := setFS st.fs p st.sBuf, sOpen := false, sPath := none } Event.streamClose
  | none => emit { st with sFail := true } Event.streamClose

/-- The hard-coded patch table of `main`, in source order. -/
def defaultPatches : List (Nat × List Nat) :=
  [ (0x2A7, [0xC0]),
    (0xE94, [0xEB]),
    (0x2E1C67, List.replicate 11 0x90),
    (0x33D7C9, [0xEB]),
    (0x355BF, [0xEB]),
    (0x33E0D6, List.replicate 22 0x90),
    (0x16D899, [0x05, 0x01, 0x00, 0x00, 0x00]),
    (0x2DB241, [50]),
    (0x5CFBC0, [0xC7, 0x05, 0x74, 0x8E, 0xD3, 0x00, 0xFF, 0xFF, 0xFF, 0xFF, 0xC3]),
    (0x469A2C, [0xE9, 0x71, 0xF0, 0x0B, 0x00, 0xF8, 0x13, 0xD4, 0x00, 0x8B, 0x1D, 0xFC]),
    (0x528AA2,
      [0x8D, 0x4D, 0xF0, 0x51, 0x57, 0xFF, 0x15, 0xDC, 0xF5, 0x9D, 0x00, 0x8B, 0x45, 0xF0, 0x8B,
       0x15, 0xF8, 0x13, 0xD4, 0x00, 0xE9, 0x7A, 0x0F, 0xF4, 0xFF]),
    (0x4691B1,
      [0x89, 0xE5, 0x8B, 0x05, 0xFC, 0x13, 0xD4, 0x00, 0x8B, 0x0D, 0xF8, 0x13, 0xD4, 0x00, 0xEB,
       0xC2, 0x7D, 0x03, 0x83, 0xC1, 0x01, 0x83, 0xC0, 0x32, 0x83, 0xC1, 0x32, 0x3B, 0x0D, 0xEC,
       0xBC, 0xCA, 0x00, 0x7E, 0x03, 0x83, 0xE9, 0x01, 0x3B, 0x05, 0xF0, 0xBC, 0xCA, 0x00, 0x7E,
       0x03, 0x83, 0xE8, 0x01, 0x83, 0xE9, 0x32, 0x83, 0xE8, 0x32, 0x89, 0x0D, 0xF8, 0x13, 0xD4,
       0x00, 0x89, 0x05, 0xFC, 0x13, 0xD4, 0x00, 0x89, 0xEC, 0x5D, 0xE9, 0xB4, 0xF7, 0xFF, 0xFF,
       0xEC, 0x5D, 0xC3, 0xC3]),
    (0x469183, [0x83, 0xF8, 0x32, 0x7D, 0x03, 0x83, 0xC0, 0x01, 0x83, 0xF9, 0x32, 0xEB, 0x31]) ]

/-- The patch-application loop of `main`: call `writeBytesAt` for every
entry in order, ignoring each call's outcome. -/
def applyPatches (st : PState) : List (Nat × List Nat) → PState
  | [] => st
  | (pos, data) :: rest => applyPatches (writeBytesAt st pos data) rest

/-- `constexpr int errorState = EXIT_SUCCESS` from `main`. -/
def errorState : Nat := EXIT_SUCCESS

/-- `main`: argument check, `fs::exists`, `createBackup`,
`validateExecutable`, open read-write, the patch loop, close, and
`return errorState`. Each guard mirrors the source's early
`return EXIT_FAILURE`. -/
def mainRun (arg : Option String) (st0 : PState) : Nat × PState :=
  match arg with
  | none => (EXIT_FAILURE, st0)
  | some wowPath =>
    let ex0 := (lookupFS st0.fs wowPath).isSome
    let st1 := emit st0 (Event.existsCheck wowPath ex0)
    if ex0 = false then (EXIT_FAILURE, st1)
    else
      match createBackup st1 wowPath with
      | (none, st2) => (EXIT_FAILURE, st2)
      | (some _, st2) =>
        match validateExecutable st2 wowPath with
        | (false, st3) => (EXIT_FAILURE, st3)
        | (true, st3) =>
          let st4 := openStream st3 wowPath
          if st4.sFail = true then (EXIT_FAILURE, st4)
          else
            let st5 := applyPatches st4 defaultPatches
            let st6 := closeStream st5
            (errorState, st6)

/-- A clean initial state: empty filesystem, no environmental failures, the
global stream default-constructed (closed, no error flags), empty trace. -/
def baseState : PState :=
  { fs := [], copyFails := false, openReadFails := false, openRWFails := false,
    removeFails := false, renameFails := false, sOpen := false, sPath := none,
    sFail := false, sPos := 0, sBuf := [], faults := [], trace := [] }

/-- Count how many of the next `n` physical operations succeed before the
first scheduled fault (an exhausted schedule means everything succeeds). -/
def countOk : List Bool → Nat → Nat
  | _, 0 => 0
  | [], n + 1 => n + 1
  | true :: _, _ + 1 => 0
  | false :: fs, n + 1 => countOk fs n + 1

/-- A state whose stream is in the failed state (e.g. after a failed
operation). -/
def stFailed : PState := { baseState with sFail := true }

/-- A state with an open, clean stream over a two-byte file. -/
def stOpenClean : PState := { baseState with sOpen := true, sBuf := [3, 3] }

/-- A filesystem holding a target file and its backup, for exercising
`restoreBackup`. -/
def stBackupPair : PState := { baseState with fs := [("w", [1]), ("w.backup", [2])] }

/-- A filesystem holding a one-byte target (wrong size), for exercising the
abort-at-validation path of `main`. -/
def stWrongSize : PState := { baseState with fs := [("wow.exe", [7])] }

/-- A filesystem holding a target of exactly the expected size, with one
scheduled stream fault, for exercising the full run of `main`. -/
def stValidTarget : PState :=
  { baseState with fs := [("wow.exe", List.replicate kExpectedSize 0)], faults := [true] }

/-- An open, clean stream over a file of exactly the expected size. -/
def stExpected : PState :=
  { baseState with sOpen := true, sBuf := List.replicate kExpectedSize 0 }

/-- An open, clean stream over a four-byte file with the fault schedule
`[false, false, true]`: the seek and the first write succeed, the second
write fails. -/
def stLoopDemo : PState :=
  { baseState with sOpen := true, sBuf := [9, 9, 9, 9], faults := [false, false, true] }

/-- An open, clean stream over a two-byte file with the schedule
`[false, true]`: the first entry's seek succeeds, its write fails. -/
def stTwoBytes : PState :=
  { baseState with sOpen := true, sBuf := [5, 5], faults := [false, true] }

/-! ### Helper lemmas: filesystem, byte updates, traces -/

theorem append_backup_ne (s : String) : s ++ ".backup" ≠ s := by
  intro h
  have h2 := congrArg String.length h
  rw [String.length_append] at h2
  have h3 : String.length ".backup" = 7 := rfl
  omega

theorem lookupFS_setFS_self (fs : List (String × List Nat)) (p : String) (c : List Nat) :
    lookupFS (setFS fs p c) p = some c := by
  induction fs with
  | nil => simp [setFS, lookupFS]
  | cons kv rest ih =>
    obtain ⟨q, d⟩ := kv
    by_cases h : q = p
    · simp [setFS, lookupFS, h]
    · simp [setFS, lookupFS, h, ih]

theorem lookupFS_setFS_ne (fs : List (String × List Nat)) (p q : String) (c : List Nat)
    (h : q ≠ p) : lookupFS (setFS fs p c) q = lookupFS fs q := by
  have h' : ¬(p = q) := fun hh => h hh.symm
  induction fs with
  | nil => simp [setFS, lookupFS, h']
  | cons kv rest ih =>
    obtain ⟨r, d⟩ := kv
    by_cases hr : r = p
    · subst hr
      simp [setFS, lookupFS, h']
    · simp [setFS, lookupFS, hr, ih]

theorem lookupFS_removeFS_self (fs : List (String × List Nat)) (p : String) :
    lookupFS (removeFS fs p) p = none := by
  induction fs with
  | nil => simp [removeFS, lookupFS]
  | cons kv rest ih =>
    obtain ⟨q, d⟩ := kv
    by_cases h : q = p <;> simp [removeFS, lookupFS, h, ih]

theorem lookupFS_removeFS_ne (fs : List (String × List Nat)) (p q : String)
    (h : q ≠ p) : lookupFS (removeFS fs p) q = lookupFS fs q := by
  have h' : ¬(p = q) := fun hh => h hh.symm
  induction fs with
  | nil => simp [removeFS, lookupFS]
  | cons kv rest ih =>
    obtain ⟨r, d⟩ := kv
    by_cases hr : r = p
    · subst hr
      simp [removeFS, lookupFS, h', ih]
    · simp [removeFS, lookupFS, hr, ih]

theorem setByte_getD (pos : Nat) (file : List Nat) (v i : Nat) :
    (setByte file pos v).getD i 0 = if i = pos then v else file.getD i 0 := by
  induction pos generalizing file i with
  | zero =>
    cases file <;> cases i <;> simp [setByte]
  | succ p ih =>
    cases file with
    | nil =>
      cases i with
      | zero => simp [setByte]
      | succ j => simpa [setByte] using ih [] j
    | cons f fsl =>
      cases i with
      | zero => simp [setByte]
      | succ j => simpa [setByte] using ih fsl j

theorem setByte_length (pos : Nat) (file : List Nat) (v : Nat) :
    (setByte file pos v).length = max file.length (pos + 1) := by
  induction pos generalizing file with
  | zero => cases file <;> simp [setByte]
  | succ p ih =>
    cases file with
    | nil => simp [setByte, ih]
    | cons f fsl =>
      simp [setByte, ih]
      omega

theorem setBytes_getD (data : List Nat) (file : List Nat) (pos i : Nat) :
    (setBytes file pos data).getD i 0 =
      if pos ≤ i ∧ i < pos + data.length then data.getD (i - pos) 0 else file.getD i 0 := by
  induction data generalizing file pos with
  | nil =>
    rw [setBytes, if_neg (by simp only [List.length_nil, Nat.add_zero]; omega)]
  | cons v ds ih =>
    rw [setBytes, ih, List.length_cons]
    rcases Nat.lt_or_ge i (pos + 1) with hlt | hge
    · rw [if_neg (by omega), setByte_getD]
      by_cases he : i = pos
      · subst he
        rw [if_pos rfl, if_pos (by omega), Nat.sub_self]
        rfl
      · rw [if_neg he, if_neg (by omega)]
    · by_cases h1 : i < pos + 1 + ds.length
      · rw [if_pos ⟨hge, h1⟩, if_pos (by omega)]
        have h4 : i - pos = (i - (pos + 1)) + 1 := by omega
        rw [h4]
        rfl
      · rw [if_neg (by omega), if_neg (by omega), setByte_getD, if_neg (by omega)]

theorem setBytes_single_length (file : List Nat) (pos v : Nat) :
    (setBytes file pos [v]).length = max file.length (pos + 1) := by
  show (setBytes (setByte file pos v) (pos + 1) []).length = _
  simp [setBytes, setByte_length]

/-! Trace monotonicity: every stream operation only appends to the trace. -/

theorem streamClear_trace (st : PState) :
    (streamClear st).trace = st.trace ++ [Event.streamClear] := rfl

theorem streamSeekp_trace (st : PState) (pos : Nat) :
    ∃ tl, (streamSeekp st pos).trace = st.trace ++ tl := by
  unfold streamSeekp takeFault
  rcases st.faults with _ | ⟨b, rest⟩ <;>
    [skip; rcases b with _ | _] <;>
    · split
      · exact ⟨[], by simp⟩
      · split <;> simp [emit]

theorem streamWriteOp_trace (st : PState) (bytes : List Nat) :
    ∃ tl, (streamWriteOp st bytes).trace = st.trace ++ tl := by
  unfold streamWriteOp takeFault
  rcases st.faults with _ | ⟨b, rest⟩ <;>
    [skip; rcases b with _ | _] <;>
    · split
      · exact ⟨[], by simp⟩
      · split <;> simp [emit]

/-- Unfolding equation for the write loop on a non-empty payload, with the
`handleStreamError` check spelled out as the stream's fail state. -/
theorem writeValuesLoop_cons (st : PState) (v : Nat) (rest : List Nat) :
    writeValuesLoop st (v :: rest) =
      if (streamWriteOp st [v]).sFail = true then streamWriteOp st [v]
      else writeValuesLoop (streamWriteOp st [v]) rest := rfl

/-- Unfolding equation for `writeBytesAt` with the guard and the
`handleStreamError` check spelled out as fail-state tests. -/
theorem writeBytesAt_eq (st : PState) (pos : Nat) (values : List Nat) :
    writeBytesAt st pos values =
      if st.sFail = true then st
      else if (streamSeekp (streamClear st) pos).sFail = true then
        streamSeekp (streamClear st) pos
      else writeValuesLoop (streamSeekp (streamClear st) pos) values := rfl

/-- Unfolding equation for `writeByteAt`. -/
theorem writeByteAt_eq (st : PState) (pos : Nat) (value : Nat) :
    writeByteAt st pos value =
      if st.sOpen = false then st
      else if (streamSeekp (streamClear st) pos).sFail = true then
        streamSeekp (streamClear st) pos
      else streamWriteOp (streamSeekp (streamClear st) pos) [value] := rfl

/-- Unfolding equation for `writeRepeatedBytesAt`. -/
theorem writeRepeatedBytesAt_eq (st : PState) (pos : Nat) (value : Nat) (n : Nat) :
    writeRepeatedBytesAt st pos value n =
      if st.sFail = true then st
      else if (streamSeekp (streamClear st) pos).sFail = true then
        streamSeekp (streamClear st) pos
      else streamWriteOp (streamSeekp (streamClear st) pos) (List.replicate n value) := rfl

theorem writeValuesLoop_trace (values : List Nat) (st : PState) :
    ∃ tl, (writeValuesLoop st values).trace = st.trace ++ tl := by
  induction values generalizing st with
  | nil => exact ⟨[], by simp [writeValuesLoop]⟩
  | cons v rest ih =>
    rw [writeValuesLoop_cons]
    obtain ⟨t1, h1⟩ := streamWriteOp_trace st [v]
    by_cases h : (streamWriteOp st [v]).sFail = true
    · rw [if_pos h]
      exact ⟨t1, h1⟩
    · rw [if_neg h]
      obtain ⟨t2, h2⟩ := ih (streamWriteOp st [v])
      exact ⟨t1 ++ t2, by rw [h2, h1, List.append_assoc]⟩

theorem writeBytesAt_trace (st : PState) (pos : Nat) (values : List Nat) :
    ∃ tl, (writeBytesAt st pos values).trace = st.trace ++ tl := by
  rw [writeBytesAt_eq]
  by_cases hf : st.sFail = true
  · rw [if_pos hf]
    exact ⟨[], by simp⟩
  · rw [if_neg hf]
    obtain ⟨t1, h1⟩ := streamSeekp_trace (streamClear st) pos
    rw [streamClear_trace, List.append_assoc] at h1
    by_cases hs : (streamSeekp (streamClear st) pos).sFail = true
    · rw [if_pos hs]
      exact ⟨_, h1⟩
    · rw [if_neg hs]
      obtain ⟨t2, h2⟩ := writeValuesLoop_trace values (streamSeekp (streamClear st) pos)
      rw [h1, List.append_assoc] at h2
      exact ⟨_, h2⟩

theorem applyPatches_trace (entries : List (Nat × List Nat)) (st : PState) :
    ∃ tl, (applyPatches st entries).trace = st.trace ++ tl := by
  induction entries generalizing st with
  | nil => exact ⟨[], by simp [applyPatches]⟩
  | cons e rest ih =>
    obtain ⟨pos, data⟩ := e
    obtain ⟨t1, h1⟩ := writeBytesAt_trace st pos data
    obtain ⟨t2, h2⟩ := ih (writeBytesAt st pos data)
    exact ⟨t1 ++ t2, by rw [applyPatches, h2, h1, List.append_assoc]⟩

theorem closeStream_trace (st : PState) :
    ∃ tl, (closeStream st).trace = st.trace ++ tl := by
  unfold closeStream
  rcases st.sPath with _ | p <;> simp [emit]

/-! ### Characterisation of the stream primitives under explicit conditions -/

theorem countOk_nil (n : Nat) : countOk [] n = n := by cases n <;> rfl

theorem streamClear_eq (st : PState) :
    streamClear st = emit { st with sFail := false } Event.streamClear := rfl

theorem streamSeekp_failed (st : PState) (pos : Nat) (hf : st.sFail = true) :
    streamSeekp st pos = st := by
  simp [streamSeekp, hf]

theorem streamSeekp_closed (st : PState) (pos : Nat)
    (ho : st.sOpen = false) (hf : st.sFail = false) :
    streamSeekp st pos = emit { st with sFail := true } (Event.streamSeek pos false) := by
  simp [streamSeekp, ho, hf]

theorem streamSeekp_nofault (st : PState) (pos : Nat)
    (ho : st.sOpen = true) (hf : st.sFail = false) (hfl : st.faults = []) :
    streamSeekp st pos = emit { st with sPos := pos } (Event.streamSeek pos true) := by
  simp [streamSeekp, takeFault, ho, hf, hfl]

theorem streamSeekp_pass (st : PState) (pos : Nat) (fl : List Bool)
    (ho : st.sOpen = true) (hf : st.sFail = false) (hfl : st.faults = false :: fl) :
    streamSeekp st pos = emit { st with faults := fl, sPos := pos } (Event.streamSeek pos true) := by
  simp [streamSeekp, takeFault, ho, hf, hfl]

theorem streamSeekp_fault (st : PState) (pos : Nat) (fl : List Bool)
    (ho : st.sOpen = true) (hf : st.sFail = false) (hfl : st.faults = true :: fl) :
    streamSeekp st pos = emit { st with faults := fl, sFail := true } (Event.streamSeek pos false) := by
  simp [streamSeekp, takeFault, ho, hf, hfl]

theorem streamWriteOp_failed (st : PState) (bytes : List Nat) (hf : st.sFail = true) :
    streamWriteOp st bytes = st := by
  simp [streamWriteOp, hf]

theorem streamWriteOp_closed (st : PState) (bytes : List Nat)
    (ho : st.sOpen = false) (hf : st.sFail = false) :
    streamWriteOp st bytes = emit { st with sFail := true } (Event.streamWrite st.sPos bytes false) := by
  simp [streamWriteOp, ho, hf]

theorem streamWriteOp_nofault (st : PState) (bytes : List Nat)
    (ho : st.sOpen = true) (hf : st.sFail = false) (hfl : st.faults = []) :
    streamWriteOp st bytes =
      emit { st with sBuf := setBytes st.sBuf st.sPos bytes, sPos := st.sPos + bytes.length }
           (Event.streamWrite st.sPos bytes true) := by
  simp [streamWriteOp, takeFault, ho, hf, hfl]

theorem streamWriteOp_pass (st : PState) (bytes : List Nat) (fl : List Bool)
    (ho : st.sOpen = true) (hf : st.sFail = false) (hfl : st.faults = false :: fl) :
    streamWriteOp st bytes =
      emit { st with faults := fl, sBuf := setBytes st.sBuf st.sPos bytes,
                     sPos := st.sPos + bytes.length }
           (Event.streamWrite st.sPos bytes true) := by
  simp [streamWriteOp, takeFault, ho, hf, hfl]

theorem streamWriteOp_fault (st : PState) (bytes : List Nat) (fl : List Bool)
    (ho : st.sOpen = true) (hf : st.sFail = false) (hfl : st.faults = true :: fl) :
    streamWriteOp st bytes =
      emit { st with faults := fl, sFail := true } (Event.streamWrite st.sPos bytes false) := by
  simp [streamWriteOp, takeFault, ho, hf, hfl]

theorem setBytes_nil (file : List Nat) (pos : Nat) : setBytes file pos [] = file := rfl

theorem setBytes_single (file : List Nat) (pos v : Nat) :
    setBytes file pos [v] = setByte file pos v := rfl

theorem setBytes_cons_eq (file : List Nat) (pos v : Nat) (X : List Nat) :
    setBytes file pos (v :: X) = setBytes (setByte file pos v) (pos + 1) X := rfl

/-- The write loop on an open, clean stream: it writes exactly the first
`countOk st.faults values.length` values (one per physical write, stopping
at the first scheduled fault), and ends in the fail state exactly when not
every value was written. -/
theorem writeValuesLoop_spec (values : List Nat) (st : PState)
    (ho : st.sOpen = true) (hf : st.sFail = false) :
    (writeValuesLoop st values).sBuf
        = setBytes st.sBuf st.sPos (values.take (countOk st.faults values.length)) ∧
    ((writeValuesLoop st values).sFail = true ↔ countOk st.faults values.length < values.length) := by
  induction values generalizing st with
  | nil =>
    refine ⟨by simp [writeValuesLoop, countOk, setBytes], ?_⟩
    simp [writeValuesLoop, countOk, hf]
  | cons v rest ih =>
    rw [writeValuesLoop_cons]
    rcases hfl : st.faults with _ | ⟨b, fl⟩
    · rw [streamWriteOp_nofault st [v] ho hf hfl]
      rw [if_neg (by simp [hf])]
      obtain ⟨ihb, ihf⟩ := ih
        (emit { st with sBuf := setBytes st.sBuf st.sPos [v], sPos := st.sPos + [v].length }
              (Event.streamWrite st.sPos [v] true)) (by simp [ho]) (by simp [hf])
      constructor
      · rw [ihb]
        simp [hfl, countOk_nil, List.take_succ_cons, List.take_length, setBytes_single,
              setBytes_cons_eq, setBytes_nil]
      · rw [ihf]
        simp [hfl, countOk_nil]
    · cases b
      · rw [streamWriteOp_pass st [v] fl ho hf hfl]
        rw [if_neg (by simp [hf])]
        obtain ⟨ihb, ihf⟩ := ih
          (emit { st with faults := fl, sBuf := setBytes st.sBuf st.sPos [v],
                          sPos := st.sPos + [v].length }
                (Event.streamWrite st.sPos [v] true)) (by simp [ho]) (by simp [hf])
        constructor
        · rw [ihb]
          simp [countOk, List.take_succ_cons, setBytes_single, setBytes_cons_eq, setBytes_nil]
        · rw [ihf]
          simp [countOk]
      · rw [streamWriteOp_fault st [v] fl ho hf hfl]
        rw [if_pos (by simp)]
        constructor
        · simp [countOk, setBytes]
        · simp [countOk]

/-! ### Characterisation of backup, validation and open under explicit conditions -/

theorem createBackup_ok (st : PState) (p : String) (c : List Nat)
    (hc : st.copyFails = false) (hl : lookupFS st.fs p = some c) :
    createBackup st p =
      (some (p ++ ".backup"),
       emit { st with fs := setFS st.fs (p ++ ".backup") c } (Event.copyFile p (p ++ ".backup"))) := by
  simp [createBackup, hc, hl]

theorem createBackup_envfail (st : PState) (p : String) (hc : st.copyFails = true) :
    createBackup st p = (none, emit st (Event.copyFailed p (p ++ ".backup"))) := by
  simp [createBackup, hc]

theorem validateExecutable_pass (st : PState) (p : String) (c : List Nat)
    (hl : lookupFS st.fs p = some c) (hr : st.openReadFails = false)
    (hs : c.length = kExpectedSize) :
    validateExecutable st p = (true, emit st (Event.validated p true)) := by
  simp [validateExecutable, hl, hr, hs]

theorem validateExecutable_fail_size (st : PState) (p : String) (c : List Nat)
    (hl : lookupFS st.fs p = some c) (hs : c.length ≠ kExpectedSize) :
    validateExecutable st p = (false, emit st (Event.validated p false)) := by
  rcases hrf : st.openReadFails with _ | _ <;> simp [validateExecutable, hl, hs, hrf]

theorem openStream_ok (st : PState) (p : String) (c : List Nat)
    (hl : lookupFS st.fs p = some c) (hrw : st.openRWFails = false) :
    openStream st p =
      emit { st with sOpen := true, sPath := some p, sFail := false, sPos := 0, sBuf := c }
           (Event.streamOpen p true) := by
  simp [openStream, hl, hrw]

theorem openStream_envfail (st : PState) (p : String) (c : List Nat)
    (hl : lookupFS st.fs p = some c) (hrw : st.openRWFails = true) :
    openStream st p = emit { st with sFail := true } (Event.streamOpen p false) := by
  simp [openStream, hl, hrw]

theorem validateExecutable_fail_read (st : PState) (p : String) (c : List Nat)
    (hl : lookupFS st.fs p = some c) (hr : st.openReadFails = true) :
    validateExecutable st p = (false, emit st (Event.validated p false)) := by
  simp [validateExecutable, hl, hr]

theorem closeStream_applyPatches_trace (st : PState) (entries : List (Nat × List Nat)) :
    ∃ tl, (closeStream (applyPatches st entries)).trace = st.trace ++ tl := by
  obtain ⟨t1, h1⟩ := applyPatches_trace entries st
  obtain ⟨t2, h2⟩ := closeStream_trace (applyPatches st entries)
  exact ⟨t1 ++ t2, by rw [h2, h1, List.append_assoc]⟩

theorem successTraceShape (st : PState) (entries : List (Nat × List Nat)) (e1 e2 e3 e4 : Event)
    (h : st.trace = [e1, e2, e3, e4]) :
    ∃ tl, (closeStream (applyPatches st entries)).trace = e1 :: e2 :: e3 :: e4 :: tl := by
  obtain ⟨t, ht⟩ := closeStream_applyPatches_trace st entries
  refine ⟨t, ?_⟩
  rw [ht, h]
  rfl

/-- Exhaustive description of the traces `main` can produce on a clean
initial trace: abort at the exists-check, abort at backup creation, abort
at validation, abort at the open, or reach the patching stage — in which
case the trace starts with exists-check, copy, validated-true and
open-true events, in that order. -/
theorem mainRun_trace_cases (wowPath : String) (st0 : PState) (h0 : st0.trace = []) :
    (mainRun (some wowPath) st0).2.trace = [Event.existsCheck wowPath false]
  ∨ (mainRun (some wowPath) st0).2.trace
      = [Event.existsCheck wowPath true, Event.copyFailed wowPath (wowPath ++ ".backup")]
  ∨ (mainRun (some wowPath) st0).2.trace
      = [Event.existsCheck wowPath true, Event.copyFile wowPath (wowPath ++ ".backup"),
         Event.validated wowPath false]
  ∨ (mainRun (some wowPath) st0).2.trace
      = [Event.existsCheck wowPath true, Event.copyFile wowPath (wowPath ++ ".backup"),
         Event.validated wowPath true, Event.streamOpen wowPath false]
  ∨ ∃ tl, (mainRun (some wowPath) st0).2.trace
      = Event.existsCheck wowPath true :: Event.copyFile wowPath (wowPath ++ ".backup") ::
        Event.validated wowPath true :: Event.streamOpen wowPath true :: tl := by
  have hb : wowPath ++ ".backup" ≠ wowPath := append_backup_ne wowPath
  rcases hex : lookupFS st0.fs wowPath with _ | c
  · left
    rw [mainRun]
    simp [hex, h0]
  · have h1 : (lookupFS st0.fs wowPath).isSome = true := by rw [hex]; rfl
    by_cases hc : st0.copyFails = true
    · right; left
      rw [mainRun]
      simp only [h1]
      rw [if_neg (by simp)]
      rw [createBackup_envfail _ wowPath (by simp [hc])]
      dsimp only
      simp [h0]
    · have hc' : st0.copyFails = false := by simpa using hc
      by_cases hr : st0.openReadFails = true
      · right; right; left
        rw [mainRun]
        simp only [h1]
        rw [if_neg (by simp)]
        rw [createBackup_ok _ wowPath c (by simp [hc']) (by simpa using hex)]
        dsimp only
        rw [validateExecutable_fail_read _ wowPath c
              (by simp only [emit_fs]
                  rw [lookupFS_setFS_ne st0.fs (wowPath ++ ".backup") wowPath c (Ne.symm hb)]
                  exact hex)
              (by simp [hr])]
        dsimp only
        simp [h0]
      · have hr' : st0.openReadFails = false := by simpa using hr
        by_cases hs : c.length = kExpectedSize
        · by_cases hrw : st0.openRWFails = true
          · right; right; right; left
            rw [mainRun]
            simp only [h1]
            rw [if_neg (by simp)]
            rw [createBackup_ok _ wowPath c (by simp [hc']) (by simpa using hex)]
            dsimp only
            rw [validateExecutable_pass _ wowPath c
                  (by simp only [emit_fs]
                      rw [lookupFS_setFS_ne st0.fs (wowPath ++ ".backup") wowPath c (Ne.symm hb)]
                      exact hex)
                  (by simp [hr']) hs]
            dsimp only
            rw [openStream_envfail _ wowPath c
                  (by simp only [emit_fs]
                      rw [lookupFS_setFS_ne st0.fs (wowPath ++ ".backup") wowPath c (Ne.symm hb)]
                      exact hex)
                  (by simp [hrw])]
            rw [if_pos (by simp)]
            simp [h0]
          · have hrw' : st0.openRWFails = false := by simpa using hrw
            right; right; right; right
            rw [mainRun]
            simp only [h1]
            rw [if_neg (by simp)]
            rw [createBackup_ok _ wowPath c (by simp [hc']) (by simpa using hex)]
            dsimp only
            rw [validateExecutable_pass _ wowPath c
                  (by simp only [emit_fs]
                      rw [lookupFS_setFS_ne st0.fs (wowPath ++ ".backup") wowPath c (Ne.symm hb)]
                      exact hex)
                  (by simp [hr']) hs]
            dsimp only
            rw [openStream_ok _ wowPath c
                  (by simp only [emit_fs]
                      rw [lookupFS_setFS_ne st0.fs (wowPath ++ ".backup") wowPath c (Ne.symm hb)]
                      exact hex)
                  (by simp [hrw'])]
            rw [if_neg (by simp)]
            dsimp only
            exact successTraceShape _ defaultPatches _ _ _ _ (by simp [h0])
        · right; right; left
          rw [mainRun]
          simp only [h1]
          rw [if_neg (by simp)]
          rw [createBackup_ok _ wowPath c (by simp [hc']) (by simpa using hex)]
          dsimp only
          rw [validateExecutable_fail_size _ wowPath c
                (by simp only [emit_fs]
                    rw [lookupFS_setFS_ne st0.fs (wowPath ++ ".backup") wowPath c (Ne.symm hb)]
                    exact hex)
                hs]
          dsimp only
          simp [h0]

/-- `main` on an existing file of the wrong size: it exits with failure and
its trace is one of the two short abort traces (backup attempt failed, or
validation reported failure after the backup was made). -/
theorem mainRun_invalid_aborts (wowPath : String) (st0 : PState) (c : List Nat)
    (h0 : st0.trace = [])
    (hfile : lookupFS st0.fs wowPath = some c)
    (hsize : c.length ≠ kExpectedSize) :
    (mainRun (some wowPath) st0).1 = EXIT_FAILURE ∧
    ((mainRun (some wowPath) st0).2.trace
        = [Event.existsCheck wowPath true, Event.copyFailed wowPath (wowPath ++ ".backup")] ∨
     (mainRun (some wowPath) st0).2.trace
        = [Event.existsCheck wowPath true, Event.copyFile wowPath (wowPath ++ ".backup"),
           Event.validated wowPath false]) := by
  have hb : wowPath ++ ".backup" ≠ wowPath := append_backup_ne wowPath
  have h1 : (lookupFS st0.fs wowPath).isSome = true := by rw [hfile]; rfl
  by_cases hc : st0.copyFails = true
  · rw [mainRun]
    simp only [h1]
    rw [if_neg (by simp)]
    rw [createBackup_envfail _ wowPath (by simp [hc])]
    dsimp only
    exact ⟨rfl, Or.inl (by simp [h0])⟩
  · have hc' : st0.copyFails = false := by simpa using hc
    rw [mainRun]
    simp only [h1]
    rw [if_neg (by simp)]
    rw [createBackup_ok _ wowPath c (by simp [hc']) (by simpa using hfile)]
    dsimp only
    rw [validateExecutable_fail_size _ wowPath c
          (by simp only [emit_fs]
              rw [lookupFS_setFS_ne st0.fs (wowPath ++ ".backup") wowPath c (Ne.symm hb)]
              exact hfile)
          hsize]
    dsimp only
    exact ⟨rfl, Or.inr (by simp [h0])⟩

theorem take_two_cons {α : Type} (a b : α) (l : List α) : (a :: b :: l).take 2 = [a, b] := rfl

theorem take_four_cons {α : Type} (a b c d : α) (l : List α) :
    (a :: b :: c :: d :: l).take 4 = [a, b, c, d] := rfl

/-- `writeValuesLoop_spec` with the relevant state fields abstracted, so it
can be applied to a compound state by naming its field values. -/
theorem writeValuesLoop_spec_fields (values : List Nat) (st : PState)
    (ho : st.sOpen = true) (hf : st.sFail = false)
    (buf : List Nat) (pos : Nat) (fl : List Bool)
    (hbuf : st.sBuf = buf) (hpos : st.sPos = pos) (hfl : st.faults = fl) :
    (writeValuesLoop st values).sBuf = setBytes buf pos (values.take (countOk fl values.length)) ∧
    ((writeValuesLoop st values).sFail = true ↔ countOk fl values.length < values.length) := by
  obtain ⟨h1, h2⟩ := writeValuesLoop_spec values st ho hf
  subst hbuf
  subst hpos
  subst hfl
  exact ⟨h1, h2⟩

/-! ### The claims -/

/-- Claim C4 (confirmed): `validateExecutable` passes exactly when the path
exists, the file can be opened for binary reading, and its size equals
`kExpectedSize` exactly — and fails in every other case (no tolerance, no
minimum-size acceptance). -/
theorem validateExecutable_pass_iff (st : PState) (p : String) :
    (validateExecutable st p).1 = true ↔
      ((∃ c, lookupFS st.fs p = some c ∧ c.length = kExpectedSize) ∧
       st.openReadFails = false) := by
  rcases hl : lookupFS st.fs p with _ | c
  · simp [validateExecutable, hl]
  · by_cases hr : st.openReadFails = true
    · simp [validateExecutable, hl, hr]
    · have hr' : st.openReadFails = false := by simpa using hr
      by_cases hs : c.length = kExpectedSize
      · simp [validateExecutable, hl, hr', hs]
      · simp [validateExecutable, hl, hr', hs]

/-- Claim C9 (confirmed): `restoreBackup` fails and leaves the whole state
unchanged whenever the backup file does not exist; when the backup exists
and neither the delete nor the rename raises, it deletes the current file,
renames the backup onto the original path and succeeds — afterwards the
path holds exactly the backed-up bytes and the backup path no longer
exists, and the trace records the delete followed by the rename. -/
theorem restoreBackup_spec (st : PState) (wow : String) :
    (lookupFS st.fs (wow ++ ".backup") = none → restoreBackup st wow = (false, st)) ∧
    (∀ c, lookupFS st.fs (wow ++ ".backup") = some c →
       st.removeFails = false → st.renameFails = false →
       (restoreBackup st wow).1 = true ∧
       lookupFS (restoreBackup st wow).2.fs wow = some c ∧
       lookupFS (restoreBackup st wow).2.fs (wow ++ ".backup") = none ∧
       (restoreBackup st wow).2.trace
          = st.trace ++ [Event.removeFile wow, Event.renameFile (wow ++ ".backup") wow]) := by
  constructor
  · intro h
    simp [restoreBackup, h]
  · intro c hc hrm hrn
    have hb : wow ++ ".backup" ≠ wow := append_backup_ne wow
    have hne := fun fs d => lookupFS_setFS_ne fs wow (wow ++ ".backup") d hb
    refine ⟨?_, ?_, ?_, ?_⟩ <;>
      simp [restoreBackup, hc, hrm, hrn, lookupFS_setFS_self, hne, lookupFS_removeFS_self]

/-- Witness for C9 at a concrete filesystem: restoring `"w"` from the pair
`[("w", [1]), ("w.backup", [2])]` succeeds, leaves `[2]` at `"w"`, removes
the backup, and records the delete-then-rename events. -/
theorem restoreBackup_spec_witness :
    (restoreBackup stBackupPair "w").1 = true ∧
    lookupFS (restoreBackup stBackupPair "w").2.fs "w" = some [2] ∧
    lookupFS (restoreBackup stBackupPair "w").2.fs ("w" ++ ".backup") = none ∧
    (restoreBackup stBackupPair "w").2.trace
        = stBackupPair.trace ++ [Event.removeFile "w", Event.renameFile ("w" ++ ".backup") "w"] :=
  (restoreBackup_spec stBackupPair "w").2 [2] rfl rfl rfl

/-- Claim C10 (confirmed): `writeBytesAt` with an empty payload on an open,
clean, fault-free stream writes nothing: the buffered file, the filesystem
and the fail state are unchanged; only the cursor is repositioned, and the
appended trace holds exactly the clear and the successful seek — no write
event. -/
theorem writeBytesAt_empty_payload (st : PState) (pos : Nat)
    (ho : st.sOpen = true) (hf : st.sFail = false) (hfl : st.faults = []) :
    (writeBytesAt st pos []).sBuf = st.sBuf ∧
    (writeBytesAt st pos []).fs = st.fs ∧
    (writeBytesAt st pos []).sPos = pos ∧
    (writeBytesAt st pos []).sFail = false ∧
    (writeBytesAt st pos []).trace = st.trace ++ [Event.streamClear, Event.streamSeek pos true] := by
  rw [writeBytesAt_eq, if_neg (by simp [hf])]
  rw [streamSeekp_nofault (streamClear st) pos (by simp [streamClear_eq, ho])
        (by simp [streamClear_eq]) (by simp [streamClear_eq, hfl])]
  rw [if_neg (by simp [streamClear_eq])]
  refine ⟨?_, ?_, ?_, ?_, ?_⟩ <;> simp [writeValuesLoop, streamClear_eq]

/-- Witness for C10 at a concrete open stream over `[3, 3]`. -/
theorem writeBytesAt_empty_payload_witness :
    (writeBytesAt stOpenClean 5 []).sBuf = stOpenClean.sBuf ∧
    (writeBytesAt stOpenClean 5 []).fs = stOpenClean.fs ∧
    (writeBytesAt stOpenClean 5 []).sPos = 5 ∧
    (writeBytesAt stOpenClean 5 []).sFail = false ∧
    (writeBytesAt stOpenClean 5 []).trace
        = stOpenClean.trace ++ [Event.streamClear, Event.streamSeek 5 true] :=
  writeBytesAt_empty_payload stOpenClean 5 rfl rfl rfl

/-- Claim C5 (corrected), counterexample: on a default-constructed stream —
not open, error flags clear — `writeBytesAt` does not return untouched as
the claim states: it performs the clear and attempts the seek, which fails,
so the trace grows and the stream ends in the failed state. -/
theorem writeBytesAt_closed_touches_stream :
    baseState.sOpen = false ∧
    (writeBytesAt baseState 0 [1]).trace = [Event.streamClear, Event.streamSeek 0 false] ∧
    (writeBytesAt baseState 0 [1]).sFail = true := by
  decide

/-- Claim C5 (corrected/amended): `writeByteAt` checks `is_open` and, when
the stream is not open, returns with no operation on the stream.
`writeBytesAt` and `writeRepeatedBytesAt` guard on the stream's fail state
instead: with the fail state set they return untouched; on a not-open
stream with clear flags they perform the clear and a failing seek (setting
the fail state) — but in every not-open case no byte is ever written: the
buffer and the filesystem are unchanged. -/
theorem byteWriter_not_open_guards (st : PState) (pos v n : Nat) (values : List Nat) :
    (st.sOpen = false → writeByteAt st pos v = st) ∧
    (st.sFail = true → writeBytesAt st pos values = st ∧ writeRepeatedBytesAt st pos v n = st) ∧
    (st.sOpen = false → st.sFail = false →
       (writeBytesAt st pos values).sBuf = st.sBuf ∧
       (writeBytesAt st pos values).fs = st.fs ∧
       (writeBytesAt st pos values).sFail = true ∧
       (writeBytesAt st pos values).trace
          = st.trace ++ [Event.streamClear, Event.streamSeek pos false] ∧
       (writeRepeatedBytesAt st pos v n).sBuf = st.sBuf ∧
       (writeRepeatedBytesAt st pos v n).fs = st.fs ∧
       (writeRepeatedBytesAt st pos v n).sFail = true ∧
       (writeRepeatedBytesAt st pos v n).trace
          = st.trace ++ [Event.streamClear, Event.streamSeek pos false]) := by
  refine ⟨?_, ?_, ?_⟩
  · intro ho
    rw [writeByteAt_eq, if_pos ho]
  · intro hf
    exact ⟨by rw [writeBytesAt_eq, if_pos hf], by rw [writeRepeatedBytesAt_eq, if_pos hf]⟩
  · intro ho hf
    have hseek : streamSeekp (streamClear st) pos
        = emit { streamClear st with sFail := true } (Event.streamSeek pos false) :=
      streamSeekp_closed (streamClear st) pos (by simp [streamClear_eq, ho])
        (by simp [streamClear_eq])
    rw [writeBytesAt_eq, if_neg (by simp [hf]), hseek, if_pos (by simp)]
    rw [writeRepeatedBytesAt_eq, if_neg (by simp [hf]), hseek, if_pos (by simp)]
    refine ⟨?_, ?_, ?_, ?_, ?_, ?_, ?_, ?_⟩ <;> simp [streamClear_eq]

/-- Witness for the amended C5: the three guards evaluated on concrete
not-open and failed streams. -/
theorem byteWriter_not_open_guards_witness :
    writeByteAt baseState 3 7 = baseState ∧
    writeBytesAt stFailed 3 [7] = stFailed ∧
    writeRepeatedBytesAt stFailed 3 7 2 = stFailed ∧
    (writeBytesAt baseState 3 [7]).sFail = true ∧
    (writeBytesAt baseState 3 [7]).trace
        = baseState.trace ++ [Event.streamClear, Event.streamSeek 3 false] :=
  ⟨(byteWriter_not_open_guards baseState 3 7 2 [7]).1 rfl,
   ((byteWriter_not_open_guards stFailed 3 7 2 [7]).2.1 rfl).1,
   ((byteWriter_not_open_guards stFailed 3 7 2 [7]).2.1 rfl).2,
   ((byteWriter_not_open_guards baseState 3 7 2 [7]).2.2 rfl rfl).2.2.1,
   ((byteWriter_not_open_guards baseState 3 7 2 [7]).2.2 rfl rfl).2.2.2.1⟩

/-- Claim C6 (confirmed): within one `writeBytesAt` call on an open, clean
stream, the values are written one physical write at a time; every
operation is checked right after execution, and on the first failing seek
or write the call stops and reports failure without undoing earlier writes:
if the seek fails nothing is written, and otherwise the file holds exactly
the prefix of the payload written before the first scheduled fault, with
the fail state set exactly when not all of the payload was written. -/
theorem writeBytesAt_first_fault (st : PState) (pos : Nat) (values : List Nat)
    (ho : st.sOpen = true) (hf : st.sFail = false) :
    (∀ fl, st.faults = true :: fl →
        (writeBytesAt st pos values).sBuf = st.sBuf ∧
        (writeBytesAt st pos values).sFail = true) ∧
    (st.faults.head? ≠ some true →
        (writeBytesAt st pos values).sBuf
            = setBytes st.sBuf pos (values.take (countOk st.faults.tail values.length)) ∧
        ((writeBytesAt st pos values).sFail = true
            ↔ countOk st.faults.tail values.length < values.length)) := by
  constructor
  · intro fl hfl
    rw [writeBytesAt_eq, if_neg (by simp [hf])]
    rw [streamSeekp_fault (streamClear st) pos fl (by simp [streamClear_eq, ho])
          (by simp [streamClear_eq]) (by simp [streamClear_eq, hfl])]
    rw [if_pos (by simp)]
    constructor <;> simp [streamClear_eq]
  · intro hhead
    rw [writeBytesAt_eq, if_neg (by simp [hf])]
    rcases hfl : st.faults with _ | ⟨b, fl⟩
    · rw [streamSeekp_nofault (streamClear st) pos (by simp [streamClear_eq, ho])
            (by simp [streamClear_eq]) (by simp [streamClear_eq, hfl])]
      rw [if_neg (by simp [streamClear_eq])]
      simp only [List.tail_nil]
      exact writeValuesLoop_spec_fields values
        (emit { streamClear st with sPos := pos } (Event.streamSeek pos true))
        (by simp [streamClear_eq, ho]) (by simp [streamClear_eq]) st.sBuf pos []
        (by simp [streamClear_eq]) (by simp) (by simp [streamClear_eq, hfl])
    · cases b
      · rw [streamSeekp_pass (streamClear st) pos fl (by simp [streamClear_eq, ho])
              (by simp [streamClear_eq]) (by simp [streamClear_eq, hfl])]
        rw [if_neg (by simp [streamClear_eq])]
        simp only [List.tail_cons]
        exact writeValuesLoop_spec_fields values
          (emit { streamClear st with faults := fl, sPos := pos } (Event.streamSeek pos true))
          (by simp [streamClear_eq, ho]) (by simp [streamClear_eq]) st.sBuf pos fl
          (by simp [streamClear_eq]) (by simp) (by simp)
      · exact absurd (by rw [hfl]; rfl) hhead

/-- Witness for C6 on `[9, 9, 9, 9]` with schedule `[false, false, true]`
writing `[1, 2, 3]` at offset 0: exactly the one-value prefix `[1]` lands
in the file and the call reports failure. -/
theorem writeBytesAt_first_fault_witness :
    (writeBytesAt stLoopDemo 0 [1, 2, 3]).sBuf = [1, 9, 9, 9] ∧
    (writeBytesAt stLoopDemo 0 [1, 2, 3]).sFail = true := by
  have h := (writeBytesAt_first_fault stLoopDemo 0 [1, 2, 3] rfl rfl).2 (by decide)
  refine ⟨?_, h.2.mpr (by decide)⟩
  rw [h.1]
  decide

/-- Claim C7 (corrected), counterexample: apply two entries with the fault
schedule `[false, true]` (the first entry's seek succeeds, its write
fails). The second entry's write is never attempted: the trace ends at the
first entry's failed write — there is no seek to offset 1 and no write of
`[2]`, successful or failed — and byte 1 keeps its original value even
though no further fault was scheduled. -/
theorem applyPatches_skips_after_failure :
    (applyPatches stTwoBytes [(0, [1]), (1, [2])]).sBuf = [5, 5] ∧
    (applyPatches stTwoBytes [(0, [1]), (1, [2])]).trace
        = [Event.streamClear, Event.streamSeek 0 true, Event.streamWrite 0 [1] false] := by
  decide

/-- Claim C7 (corrected/amended): the patch loop does call `writeBytesAt`
for every entry in order, but once the stream is in the failed state every
subsequent call returns at its `if (!wowExe)` guard — applying any list of
remaining entries leaves the state completely unchanged, so no seek or
write is attempted for any entry after the first failure. -/
theorem applyPatches_inert_after_failure (st : PState) (entries : List (Nat × List Nat))
    (hf : st.sFail = true) : applyPatches st entries = st := by
  induction entries with
  | nil => rfl
  | cons e rest ih =>
    obtain ⟨pos, data⟩ := e
    rw [applyPatches]
    rw [writeBytesAt_eq, if_pos hf]
    exact ih

/-- Witness for the amended C7: a failed stream is left untouched by a
two-entry patch list. -/
theorem applyPatches_inert_after_failure_witness :
    applyPatches stFailed [(0, [1]), (1, [2])] = stFailed :=
  applyPatches_inert_after_failure stFailed [(0, [1]), (1, [2])] rfl

/-- Claim C8 (confirmed): applying the one-entry patch set
`{offset = 0x2A7, data = [0xC0]}` on an open, clean, fault-free stream over
a file of the expected size sets the byte at offset 0x2A7 to 0xC0, leaves
every other byte unchanged, and preserves the file's length. -/
theorem applyPatches_single_entry (st : PState)
    (ho : st.sOpen = true) (hf : st.sFail = false) (hfl : st.faults = [])
    (hlen : st.sBuf.length = kExpectedSize) :
    (applyPatches st [(0x2A7, [0xC0])]).sBuf.getD 0x2A7 0 = 0xC0 ∧
    (∀ i, i ≠ 0x2A7 → (applyPatches st [(0x2A7, [0xC0])]).sBuf.getD i 0 = st.sBuf.getD i 0) ∧
    (applyPatches st [(0x2A7, [0xC0])]).sBuf.length = st.sBuf.length := by
  have hbuf : (applyPatches st [(0x2A7, [0xC0])]).sBuf = setBytes st.sBuf 0x2A7 [0xC0] := by
    rw [applyPatches, applyPatches]
    rw [writeBytesAt_eq, if_neg (by simp [hf])]
    rw [streamSeekp_nofault (streamClear st) 0x2A7 (by simp [streamClear_eq, ho])
          (by simp [streamClear_eq]) (by simp [streamClear_eq, hfl])]
    rw [if_neg (by simp [streamClear_eq])]
    obtain ⟨hb1, _⟩ := writeValuesLoop_spec_fields [0xC0]
      (emit { streamClear st with sPos := 0x2A7 } (Event.streamSeek 0x2A7 true))
      (by simp [streamClear_eq, ho]) (by simp [streamClear_eq]) st.sBuf 0x2A7 []
      (by simp [streamClear_eq]) (by simp) (by simp [streamClear_eq, hfl])
    rw [hb1]
    rfl
  refine ⟨?_, ?_, ?_⟩
  · rw [hbuf, setBytes_getD]
    norm_num
  · intro i hi
    rw [hbuf, setBytes_getD]
    rw [if_neg (by simp only [List.length_cons, List.length_nil]; omega)]
  · rw [hbuf, setBytes_single, setByte_length, hlen]
    have h : (0x2A7 : Nat) + 1 ≤ kExpectedSize := by decide
    omega

/-- Witness for C8 on a concrete zero-filled file of the expected size. -/
theorem applyPatches_single_entry_witness :
    (applyPatches stExpected [(0x2A7, [0xC0])]).sBuf.getD 0x2A7 0 = 0xC0 ∧
    (∀ i, i ≠ 0x2A7 →
        (applyPatches stExpected [(0x2A7, [0xC0])]).sBuf.getD i 0 = stExpected.sBuf.getD i 0) ∧
    (applyPatches stExpected [(0x2A7, [0xC0])]).sBuf.length = stExpected.sBuf.length :=
  applyPatches_single_entry stExpected rfl rfl rfl (by simp [stExpected, baseState])

/-- Claim C2 (confirmed): whenever the argument is present, the target
exists, backup creation succeeds, validation passes and the read-write open
succeeds, `main` returns `EXIT_SUCCESS` — the initial state's fault
schedule (hence any seek or write failure during patch application) is
arbitrary and cannot change the exit code. -/
theorem mainRun_valid_success (wowPath : String) (st0 : PState) (c : List Nat)
    (hfile : lookupFS st0.fs wowPath = some c)
    (hcopy : st0.copyFails = false)
    (hread : st0.openReadFails = false)
    (hsize : c.length = kExpectedSize)
    (hrw : st0.openRWFails = false) :
    (mainRun (some wowPath) st0).1 = EXIT_SUCCESS := by
  have hb : wowPath ++ ".backup" ≠ wowPath := append_backup_ne wowPath
  have h1 : (lookupFS st0.fs wowPath).isSome = true := by rw [hfile]; rfl
  rw [mainRun]
  simp only [h1]
  rw [createBackup_ok _ wowPath c (by simp [hcopy]) (by simpa using hfile)]
  rw [if_neg (by simp)]
  dsimp only
  rw [validateExecutable_pass _ wowPath c
        (by simp only [emit_fs]
            rw [lookupFS_setFS_ne st0.fs (wowPath ++ ".backup") wowPath c (Ne.symm hb)]
            exact hfile)
        (by simp [hread]) hsize]
  dsimp only
  rw [openStream_ok _ wowPath c
        (by simp only [emit_fs]
            rw [lookupFS_setFS_ne st0.fs (wowPath ++ ".backup") wowPath c (Ne.symm hb)]
            exact hfile)
        (by simp [hrw])]
  simp [errorState]

/-- Witness for C2: a run on a zero-filled target of the expected size with
one scheduled stream fault (so the first entry's seek fails) still exits
with `EXIT_SUCCESS`. -/
theorem mainRun_valid_success_witness :
    (mainRun (some "wow.exe") stValidTarget).1 = EXIT_SUCCESS :=
  mainRun_valid_success "wow.exe" stValidTarget (List.replicate kExpectedSize 0) rfl rfl rfl
    (by simp) rfl

/-- Claim C1 (corrected), counterexample: a target that exists but fails
validation (one byte, size ≠ `kExpectedSize`). The run aborts with failure,
yet the final filesystem contains the backup file — `main` called
`createBackup` before `validateExecutable`, as the trace shows: the copy
event precedes the (failing) validation event. -/
theorem backup_created_for_invalid_target :
    lookupFS (mainRun (some "wow.exe") stWrongSize).2.fs "wow.exe.backup" = some [7] ∧
    (mainRun (some "wow.exe") stWrongSize).2.trace
        = [Event.existsCheck "wow.exe" true, Event.copyFile "wow.exe" "wow.exe.backup",
           Event.validated "wow.exe" false] ∧
    (mainRun (some "wow.exe") stWrongSize).1 = EXIT_FAILURE := by
  decide

/-- Claim C1 (corrected/amended): `main` runs backup creation before
validation — in every run whose trace contains a validation event, there is
a trace cut containing the backup-copy event and no validation event, so
the Validator is consulted only after `createBackup` has succeeded (and a
backup file may therefore be created or overwritten for a target that fails
validation; validation still gates the stream open and all writes). -/
theorem mainRun_backup_precedes_validation (wowPath : String) (st0 : PState)
    (h0 : st0.trace = []) (p : String) (ok : Bool)
    (hv : Event.validated p ok ∈ (mainRun (some wowPath) st0).2.trace) :
    ∃ n, Event.copyFile wowPath (wowPath ++ ".backup")
            ∈ ((mainRun (some wowPath) st0).2.trace.take n) ∧
         ∀ q b, Event.validated q b ∉ ((mainRun (some wowPath) st0).2.trace.take n) := by
  rcases mainRun_trace_cases wowPath st0 h0 with h | h | h | h | ⟨tl, h⟩
  · rw [h] at hv
    simp at hv
  · rw [h] at hv
    simp at hv
  · refine ⟨2, ?_, ?_⟩
    · rw [h, take_two_cons]
      simp
    · intro q b
      rw [h, take_two_cons]
      simp
  · refine ⟨2, ?_, ?_⟩
    · rw [h, take_two_cons]
      simp
    · intro q b
      rw [h, take_two_cons]
      simp
  · refine ⟨2, ?_, ?_⟩
    · rw [h, take_two_cons]
      simp
    · intro q b
      rw [h, take_two_cons]
      simp

/-- Witness for the amended C1 on the wrong-size target: its run does
validate (and fail), and the backup-copy event sits in a validation-free
cut of the trace. -/
theorem mainRun_backup_precedes_validation_witness :
    ∃ n, Event.copyFile "wow.exe" ("wow.exe" ++ ".backup")
            ∈ ((mainRun (some "wow.exe") stWrongSize).2.trace.take n) ∧
         ∀ q b, Event.validated q b ∉ ((mainRun (some "wow.exe") stWrongSize).2.trace.take n) :=
  mainRun_backup_precedes_validation "wow.exe" stWrongSize rfl "wow.exe" false (by decide)

/-- Claim C3 (confirmed): no byte of the target is mutated before
validation has passed and a backup exists. First conjunct: if the trace of
a run contains any physical write event, then some cut of the trace
contains the successful validation event and the backup-copy event but no
write event — every write happens strictly after both. Second conjunct: on
a target whose size differs from `kExpectedSize`, the run exits with
failure and its trace contains no write event at all. -/
theorem mainRun_writes_gated (wowPath : String) (st0 : PState) (h0 : st0.trace = []) :
    ((∃ p bs ok, Event.streamWrite p bs ok ∈ (mainRun (some wowPath) st0).2.trace) →
       ∃ n, Event.validated wowPath true ∈ ((mainRun (some wowPath) st0).2.trace.take n) ∧
            Event.copyFile wowPath (wowPath ++ ".backup")
                ∈ ((mainRun (some wowPath) st0).2.trace.take n) ∧
            ∀ p bs ok, Event.streamWrite p bs ok ∉ ((mainRun (some wowPath) st0).2.trace.take n)) ∧
    (∀ c, lookupFS st0.fs wowPath = some c → c.length ≠ kExpectedSize →
       (mainRun (some wowPath) st0).1 = EXIT_FAILURE ∧
       ∀ p bs ok, Event.streamWrite p bs ok ∉ (mainRun (some wowPath) st0).2.trace) := by
  constructor
  · rintro ⟨p, bs, ok, hw⟩
    rcases mainRun_trace_cases wowPath st0 h0 with h | h | h | h | ⟨tl, h⟩
    · rw [h] at hw
      simp at hw
    · rw [h] at hw
      simp at hw
    · rw [h] at hw
      simp at hw
    · rw [h] at hw
      simp at hw
    · refine ⟨4, ?_, ?_, ?_⟩
      · rw [h, take_four_cons]
        simp
      · rw [h, take_four_cons]
        simp
      · intro p' bs' ok'
        rw [h, take_four_cons]
        simp
  · intro c hfile hsize
    obtain ⟨hexit, htr⟩ := mainRun_invalid_aborts wowPath st0 c h0 hfile hsize
    refine ⟨hexit, ?_⟩
    intro p bs ok
    rcases htr with h | h <;> rw [h] <;> simp

/-- Witness for C3 on the wrong-size target: the run exits with failure and
performs no write. -/
theorem mainRun_writes_gated_witness :
    (mainRun (some "wow.exe") stWrongSize).1 = EXIT_FAILURE ∧
    ∀ p bs ok, Event.streamWrite p bs ok ∉ (mainRun (some "wow.exe") stWrongSize).2.trace :=
  (mainRun_writes_gated "wow.exe" stWrongSize rfl).2 [7] rfl (by decide)
